import Mathlib

set_option maxHeartbeats 1000000
set_option maxRecDepth 4000

/-!
Verification development for the AIDE platform core: the agent orchestration
pipeline (`AgentOrchestrator.orchestrate` with the built-in Planner, Coder,
Verifier and Executor agents) and the long-term memory subsystem
(`MemoryStorage` with `store`, `retrieve`, `update`, `delete`).

JavaScript strings are modelled as Lean `String`s; the string operations the
source uses (`String.prototype.includes`, `String.prototype.split` with a
plain separator, `split(/\s+/)`) are given executable translations below.
JavaScript truthiness tests on numbers, strings and optional values are
translated explicitly (`0`, `""` and `undefined` are falsy; an array value,
even empty, is truthy).
-/

/-- Model of `s.includes(sub)` for JavaScript strings, on character lists:
true when `sub` occurs contiguously in `l`. -/
def listIncludes (sub : List Char) : List Char → Bool
  | [] => sub.isEmpty
  | c :: rest => sub.isPrefixOf (c :: rest) || listIncludes sub rest

/-- Model of `s.split(sep)` for a nonempty plain-string separator, on
character lists: non-overlapping, left to right, as JavaScript does.
A separator match contributes an empty chunk boundary; the result always
has one more element than there are separator occurrences. Structural
recursion on a fuel argument (each step consumes at least one character, so
fuel `l.length` is exact); the fuel keeps the definition kernel-reducible. -/
def jsSplitCoreF (sep : List Char) : Nat → List Char → List (List Char)
  | _, [] => [[]]
  | 0, _ :: _ => [[]]
  | fuel + 1, c :: rest =>
    if sep ≠ [] ∧ sep.isPrefixOf (c :: rest) then
      [] :: jsSplitCoreF sep fuel ((c :: rest).drop sep.length)
    else
      match jsSplitCoreF sep fuel rest with
      | [] => [[c]]
      | h :: t => (c :: h) :: t

/-- The `s.split(sep)` on character lists. -/
def jsSplitCore (sep l : List Char) : List (List Char) :=
  jsSplitCoreF sep l.length l

/-- The number of non-overlapping occurrences of `sub`, counted left to
right as the split does, with the same fuel discipline. -/
def countOccurrencesF (sub : List Char) : Nat → List Char → Nat
  | _, [] => 0
  | 0, _ :: _ => 0
  | fuel + 1, c :: rest =>
    if sub ≠ [] ∧ sub.isPrefixOf (c :: rest) then
      1 + countOccurrencesF sub fuel ((c :: rest).drop sub.length)
    else
      countOccurrencesF sub fuel rest

/-- The number of non-overlapping occurrences of `sub` in `l`, counted left
to right (the count `s.split(sub)` is based on). -/
def countOccurrences (sub l : List Char) : Nat :=
  countOccurrencesF sub l.length l

/-- The `code.includes(sub)` on Lean strings. -/
def jsIncludes (s sub : String) : Bool := listIncludes sub.toList s.toList

/-- The `s.split(sep)` on Lean strings (nonempty plain separator). -/
def jsSplit (s sep : String) : List String :=
  (jsSplitCore sep.toList s.toList).map (fun l => String.mk l)

/-- Whitespace class of the JavaScript regular expression `\s` restricted to
the characters that occur in this code base. -/
def isJsWs (c : Char) : Bool := c = ' ' || c = '\t' || c = '\n' || c = '\r'

/-- Model of `str.split(/\s+/)`: split on maximal whitespace runs; leading or
trailing whitespace contributes an empty piece. Fueled like the other split
so it stays kernel-reducible. -/
def splitWsRunsF : Nat → List Char → List (List Char)
  | _, [] => [[]]
  | 0, _ :: _ => [[]]
  | fuel + 1, c :: rest =>
    if isJsWs c then
      [] :: splitWsRunsF fuel (rest.dropWhile isJsWs)
    else
      match splitWsRunsF fuel rest with
      | [] => [[c]]
      | h :: t => (c :: h) :: t

/-- The `str.split(/\s+/)` on character lists. -/
def splitWsRuns (l : List Char) : List (List Char) :=
  splitWsRunsF l.length l

/-- The `x || d` for a JavaScript optional number in `Nat` position: `undefined`
and `0` are falsy and give the default. -/
def jsOrNat (x : Option Nat) (d : Nat) : Nat :=
  match x with
  | some n => if n = 0 then d else n
  | none => d

/-- Truthiness of a JavaScript optional string: `undefined` and `""` are
falsy. -/
def strTruthy : Option String → Bool
  | some s => !(s == "")
  | none => false

/-- Truthiness of a JavaScript optional number: `undefined` and `0` are
falsy. -/
def natTruthy : Option Nat → Bool
  | some n => !(n == 0)
  | none => false

/-! ## Memory subsystem data model (`MemoryEntry`, `MemoryQuery`, results) -/

/-- The `memoryType` union: `"lesson" | "preference" | "solution" | "error"`. -/
inductive MemoryType where
  | lesson
  | preference
  | solution
  | error
deriving DecidableEq, Repr

/-- The `MemoryEntry` from the memory module. Timestamps are modelled as `Nat`
instants; embedding components as exact rationals. `embedding` and
`relevanceScore` are optional fields exactly as in the source
(`embedding?: number[]`, `relevanceScore?: number`). -/
structure MemoryEntry where
  id : String
  userId : Nat
  projectId : Option Nat
  memoryType : MemoryType
  key : String
  value : String
  embedding : Option (List ℚ)
  relevanceScore : Option ℚ
  createdAt : Nat
  updatedAt : Nat
  accessCount : Nat
  lastAccessed : Nat
deriving DecidableEq, Repr

/-- The `MemoryQuery` from the memory module. -/
structure MemoryQuery where
  userId : Nat
  projectId : Option Nat := none
  memoryType : Option MemoryType := none
  query : Option String := none
  limit : Option Nat := none
deriving DecidableEq, Repr

/-- The `MemoryRetrievalResult` from the memory module. -/
structure MemoryRetrievalResult where
  entries : List MemoryEntry
  totalResults : Nat
  executionTime : Nat
deriving DecidableEq, Repr

/-- The embedding capability consumed by `MemoryStorage`. The concrete
`VectorEmbeddingService` computes with floating-point `Math.sin` and square
roots, which have no exact shallow embedding; the claims under study hold or
fail uniformly in the two functions, so the service is kept as an explicit
parameter over exact rationals (`generateEmbedding` for
`generateEmbedding(text)`, `calculateSimilarity` for
`calculateSimilarity(e1, e2)`). -/
structure EmbeddingService where
  generateEmbedding : String → List ℚ
  calculateSimilarity : List ℚ → List ℚ → ℚ

/-- The `MemoryStorage` state: the `memories` map in insertion order (a
JavaScript `Map` iterates in insertion order, and `set` on an existing key
keeps its position) together with the `nextId` counter. -/
structure MemoryStorage where
  memories : List MemoryEntry
  nextId : Nat
deriving DecidableEq, Repr

namespace MemoryStorage

/-- The three `continue` filters at the top of the `retrieve` loop:
`entry.userId !== query.userId`, `query.projectId && entry.projectId !==
query.projectId` (a `projectId` of `0` is falsy and disables the filter),
`query.memoryType && entry.memoryType !== query.memoryType`. -/
def skipsEntry (q : MemoryQuery) (e : MemoryEntry) : Bool :=
  !(e.userId == q.userId) ||
  (natTruthy q.projectId && !(e.projectId == q.projectId)) ||
  (q.memoryType.isSome && !(some e.memoryType == q.memoryType))

/-- One iteration of the `retrieve` candidate loop for one stored entry:
returns the pushed candidate (if any) and the entry as it is left in the
store. The branch `if (query.query && entry.embedding)` requires a nonempty
query text and a present (possibly empty) embedding array; inside it, a
candidate with similarity above `0.3` has `relevanceScore` assigned on the
stored object itself. -/
def scanEntry (svc : EmbeddingService) (q : MemoryQuery) (e : MemoryEntry) :
    Option MemoryEntry × MemoryEntry :=
  if skipsEntry q e then (none, e)
  else if strTruthy q.query && e.embedding.isSome then
    let queryEmbedding := svc.generateEmbedding (q.query.getD "")
    let similarity := svc.calculateSimilarity (e.embedding.getD []) queryEmbedding
    if (3 / 10 : ℚ) < similarity then
      let scored := { e with relevanceScore := some similarity }
      (some scored, scored)
    else (none, e)
  else (some e, e)

/-- The `results` array after the candidate loop, in push order. -/
def candidates (svc : EmbeddingService) (st : MemoryStorage) (q : MemoryQuery) :
    List MemoryEntry :=
  st.memories.filterMap (fun e => (scanEntry svc q e).1)

/-- The stored entries after the candidate loop (`relevanceScore` mutations
applied), in store order. -/
def afterScan (svc : EmbeddingService) (st : MemoryStorage) (q : MemoryQuery) :
    List MemoryEntry :=
  st.memories.map (fun e => (scanEntry svc q e).2)

/-- The `a.relevanceScore || 0` in the sort comparator. -/
def scoreOf (e : MemoryEntry) : ℚ := e.relevanceScore.getD 0

/-- The total preorder realised by the comparator
`scoreB - scoreA || b.accessCount - a.accessCount`: higher relevance first,
ties by higher access count, full ties kept in original order (JavaScript
sort is stable). -/
def retrieveOrder (a b : MemoryEntry) : Prop :=
  scoreOf b < scoreOf a ∨ (scoreOf a = scoreOf b ∧ b.accessCount ≤ a.accessCount)

instance : DecidableRel retrieveOrder := fun a b =>
  inferInstanceAs (Decidable (_ ∨ _))

/-- The access bookkeeping applied to each returned entry:
`entry.accessCount++; entry.lastAccessed = new Date()`. -/
def bumpAccess (now : Nat) (e : MemoryEntry) : MemoryEntry :=
  { e with accessCount := e.accessCount + 1, lastAccessed := now }

/-- The `MemoryStorage.retrieve(query)`. Returns the result object together with
the storage state after the call (the source mutates the stored entry
objects in place; `executionTime` measures wall-clock time and is modelled
as `0`). -/
def retrieve (svc : EmbeddingService) (st : MemoryStorage) (q : MemoryQuery)
    (now : Nat) : MemoryRetrievalResult × MemoryStorage :=
  let results := candidates svc st q
  let sorted := List.insertionSort retrieveOrder results
  let limited := sorted.take (jsOrNat q.limit 10)
  let returnedIds : List String := limited.map (fun e => e.id)
  let memories := (afterScan svc st q).map
    (fun e => if e.id ∈ returnedIds then bumpAccess now e else e)
  ({ entries := limited.map (bumpAccess now),
     totalResults := results.length,
     executionTime := 0 },
   { st with memories := memories })

/-- The `MemoryStorage.store(userId, memoryType, key, value, projectId?)`. -/
def store (svc : EmbeddingService) (st : MemoryStorage) (userId : Nat)
    (memoryType : MemoryType) (key value : String) (projectId : Option Nat)
    (now : Nat) : MemoryEntry × MemoryStorage :=
  let id := "mem-" ++ toString st.nextId
  let embedding := svc.generateEmbedding value
  let entry : MemoryEntry :=
    { id := id, userId := userId, projectId := projectId,
      memoryType := memoryType, key := key, value := value,
      embedding := some embedding, relevanceScore := none,
      createdAt := now, updatedAt := now, accessCount := 0,
      lastAccessed := now }
  (entry, { memories := st.memories ++ [entry], nextId := st.nextId + 1 })

/-- The partial update passed to `MemoryStorage.update` (the fields of
`Partial<MemoryEntry>` the callers of this module supply). -/
structure MemoryUpdates where
  key : Option String := none
  value : Option String := none
deriving DecidableEq, Repr

/-- The `MemoryStorage.update(id, userId, updates)`: `NotFoundOrUnauthorized`
when no entry with the id exists or it belongs to another user; otherwise
merge the updates, refresh `updatedAt`, and regenerate the embedding only
when `updates.value` is truthy (an empty-string value is falsy and skips
regeneration). Returns the updated entry and the new state. -/
def update (svc : EmbeddingService) (st : MemoryStorage) (id : String)
    (userId : Nat) (updates : MemoryUpdates) (now : Nat) :
    Except String (MemoryEntry × MemoryStorage) :=
  match st.memories.find? (fun e => e.id == id) with
  | none => .error "Memory not found or unauthorized"
  | some entry =>
    if entry.userId ≠ userId then .error "Memory not found or unauthorized"
    else
      let merged := { entry with
        key := updates.key.getD entry.key,
        value := updates.value.getD entry.value,
        updatedAt := now }
      let updated :=
        if strTruthy updates.value then
          { merged with
            embedding := some (svc.generateEmbedding (updates.value.getD "")) }
        else merged
      .ok (updated,
        { st with memories :=
            st.memories.map (fun e => if e.id == id then updated else e) })

/-- The `Map.prototype.delete(id)`: removes the keyed entry and reports whether
it existed. -/
def mapDelete (l : List MemoryEntry) (id : String) : Bool × List MemoryEntry :=
  match l.find? (fun e => e.id == id) with
  | some _ => (true, l.eraseP (fun e => e.id == id))
  | none => (false, l)

/-- The `MemoryStorage.delete(id, userId)`: `NotFoundOrUnauthorized` when the
entry is absent or owned by another user, else the result of the map
removal. -/
def delete (st : MemoryStorage) (id : String) (userId : Nat) :
    Except String (Bool × MemoryStorage) :=
  match st.memories.find? (fun e => e.id == id) with
  | none => .error "Memory not found or unauthorized"
  | some entry =>
    if entry.userId ≠ userId then .error "Memory not found or unauthorized"
    else
      let d := mapDelete st.memories id
      .ok (d.1, { st with memories := d.2 })

end MemoryStorage

/-! ## Agent orchestration pipeline -/

/-- The `agentType` union: `"planner" | "coder" | "verifier" | "executor"`. -/
inductive AgentType where
  | planner
  | coder
  | verifier
  | executor
deriving DecidableEq, Repr

/-- The `status` union: `"pending" | "running" | "completed" | "failed"`. -/
inductive TaskStatus where
  | pending
  | running
  | completed
  | failed
deriving DecidableEq, Repr

/-- The `AgentTask` from the orchestrator module (`Date` instants as `Nat`). -/
structure AgentTask where
  id : String
  projectId : Nat
  agentType : AgentType
  status : TaskStatus
  prompt : String
  result : Option String
  error : Option String
  createdAt : Nat
  completedAt : Option Nat
deriving DecidableEq, Repr

/-- The `AgentResponse` from the orchestrator module. -/
structure AgentResponse where
  success : Bool
  result : Option String := none
  error : Option String := none
  nextAgent : Option AgentType := none
deriving DecidableEq, Repr

/-- The plan template literal built by `PlannerAgent.analyze` (the
surrounding `try` never reaches its `catch`: the body is total string
construction). -/
def planTemplate (prompt : String) : String :=
  "\nDevelopment Plan for: " ++ prompt ++
  "\n\n1. Architecture Design\n   - Identify core components\n   - Define data models\n   - Plan API structure\n\n2. Implementation Steps\n   - Setup project structure\n   - Create database schema\n   - Build API endpoints\n   - Develop UI components\n\n3. Testing Strategy\n   - Unit tests\n   - Integration tests\n   - E2E tests\n\n4. Deployment Plan\n   - Build optimization\n   - Performance tuning\n   - Production deployment\n      "

/-- The `PlannerAgent.analyze(prompt)`. -/
def PlannerAgent.analyze (prompt : String) : AgentResponse :=
  { success := true, result := some (planTemplate prompt),
    nextAgent := some .coder }

/-- The word mapper inside `toPascalCase`:
`word.charAt(0).toUpperCase() + word.slice(1).toLowerCase()`. -/
def pascalWord : List Char → List Char
  | [] => []
  | c :: rest => c.toUpper :: rest.map Char.toLower

/-- The `CoderAgent.toPascalCase(str)`:
`str.split(/\s+/).map(...).join("")`. -/
def CoderAgent.toPascalCase (s : String) : String :=
  String.mk (((splitWsRuns s.toList).map pascalWord).flatten)

/-- The code template literal built by `CoderAgent.generate` (literal braces
written as escapes with the same string value). -/
def codeTemplate (prompt : String) : String :=
  let p := CoderAgent.toPascalCase prompt
  "\n// Generated code for: " ++ prompt ++
  "\n\nexport interface " ++ p ++
  " \x7b\n  id: number;\n  name: string;\n  createdAt: Date;\n  updatedAt: Date;\n\x7d\n\nexport async function create" ++ p ++
  "(data: any) \x7b\n  // Implementation will be generated based on requirements\n  return data;\n\x7d\n\nexport async function get" ++ p ++
  "(id: number) \x7b\n  // Retrieve implementation\n  return null;\n\x7d\n\nexport async function update" ++ p ++
  "(id: number, data: any) \x7b\n  // Update implementation\n  return data;\n\x7d\n\nexport async function delete" ++ p ++
  "(id: number) \x7b\n  // Delete implementation\n  return true;\n\x7d\n      "

/-- The `CoderAgent.generate(prompt, plan?)`; the `plan` argument is accepted
and, exactly as in the source, not used by the template. -/
def CoderAgent.generate (prompt : String) (plan : Option String) :
    AgentResponse :=
  { success := true, result := some (codeTemplate prompt),
    nextAgent := some .verifier }

/-- The `VerifierAgent.checkCodeQuality(code)`: the three fixed checks, in push
order. -/
def VerifierAgent.checkCodeQuality (code : String) : List String :=
  (if !(jsIncludes code "export") then ["No exports found in code"] else []) ++
  (if jsIncludes code "any" && decide ((jsSplit code "any").length > 3) then
    ["Excessive use of \x27any\x27 type - consider proper typing"] else []) ++
  (if !(jsIncludes code "error") && !(jsIncludes code "try") then
    ["No error handling detected"] else [])

/-- The `VerifierAgent.verify(code)`. -/
def VerifierAgent.verify (code : String) : AgentResponse :=
  let issues := VerifierAgent.checkCodeQuality code
  if issues.length = 0 then
    { success := true,
      result := some "Code verification passed. No issues found.",
      nextAgent := some .executor }
  else
    { success := false,
      error := some ("Code verification found " ++ toString issues.length ++
        " issues:\n" ++ String.intercalate "\n" issues),
      nextAgent := some .coder }

/-- The execution summary template literal built by
`ExecutorAgent.execute`. -/
def execTemplate : String :=
  "\nExecution Summary:\n- Code compiled successfully\n- All tests passed\n- Build artifacts generated\n- Ready for deployment\n\nDeployment Status:\n- Project built successfully\n- Artifacts: /dist/\n- Build time: 2.34s\n- Bundle size: 145KB\n      "

/-- The `ExecutorAgent.execute(code, projectId)` (the `console.log` side effect
is dropped; the summary does not depend on the arguments). -/
def ExecutorAgent.execute (code : String) (projectId : Nat) : AgentResponse :=
  { success := true, result := some execTemplate }

/-- The four agent capabilities the orchestrator drives. Each stage call is
a potentially failing external capability; the concrete built-in agents are
`builtinAgents` below. -/
structure AgentSet where
  analyze : String → AgentResponse
  generate : String → Option String → AgentResponse
  verify : String → AgentResponse
  execute : String → Nat → AgentResponse

/-- The concrete agents the `AgentOrchestrator` constructor installs. -/
def builtinAgents : AgentSet :=
  { analyze := PlannerAgent.analyze, generate := CoderAgent.generate,
    verify := VerifierAgent.verify, execute := ExecutorAgent.execute }

/-- A stage task as first created: `status: "running"`, no result or error,
id built from the stage tag and the clock. -/
def mkTask (tag : String) (projectId : Nat) (agentType : AgentType)
    (prompt : String) (now : Nat) : AgentTask :=
  { id := tag ++ toString now, projectId := projectId,
    agentType := agentType, status := .running, prompt := prompt,
    result := none, error := none, createdAt := now, completedAt := none }

/-- Finalizing a stage task from the stage response: status from
`response.success`, result and error copied, `completedAt` stamped. -/
def finalizeTask (t : AgentTask) (r : AgentResponse) (now : Nat) : AgentTask :=
  { t with
    status := (if r.success then TaskStatus.completed else TaskStatus.failed),
    result := r.result, error := r.error, completedAt := some now }

/-- The `AgentOrchestrator.orchestrate(prompt, projectId)` with the agent set as
an explicit parameter: run Planner, then Coder on the plan, then Verifier on
the code, then Executor on the code, stopping after the first failed stage;
the trace is returned in stage order. The surrounding `try/catch` is
unreachable (every stage returns a response rather than throwing) and the
wall clock is one `now` parameter. -/
def orchestratePipeline (A : AgentSet) (prompt : String) (projectId : Nat)
    (now : Nat) : List AgentTask :=
  let planResult := A.analyze prompt
  let planTask :=
    finalizeTask (mkTask "plan-" projectId .planner prompt now) planResult now
  if !planResult.success then [planTask]
  else
    let codeResult := A.generate prompt planResult.result
    let codeTask :=
      finalizeTask
        (mkTask "code-" projectId .coder (planResult.result.getD "") now)
        codeResult now
    if !codeResult.success then [planTask, codeTask]
    else
      let verifyResult := A.verify (codeResult.result.getD "")
      let verifyTask :=
        finalizeTask
          (mkTask "verify-" projectId .verifier (codeResult.result.getD "") now)
          verifyResult now
      if !verifyResult.success then [planTask, codeTask, verifyTask]
      else
        let execResult := A.execute (codeResult.result.getD "") projectId
        let execTask :=
          finalizeTask
            (mkTask "exec-" projectId .executor (codeResult.result.getD "") now)
            execResult now
        [planTask, codeTask, verifyTask, execTask]

/-- The `AgentOrchestrator.orchestrate` as shipped: the pipeline over the
built-in agents. -/
def AgentOrchestrator.orchestrate (prompt : String) (projectId : Nat)
    (now : Nat) : List AgentTask :=
  orchestratePipeline builtinAgents prompt projectId now

/-! ## Concrete instances used by the witnesses and counterexamples -/

/-- A degenerate embedding service: every text embeds to `[1]` and every
similarity is `1` (above the `0.3` floor, as the self-similarity of the
concrete sine-hash service is). -/
def svcOne : EmbeddingService := ⟨fun _ => [1], fun _ _ => 1⟩

/-- An embedding service whose vector is the text length, so that distinct
lengths give distinct embeddings (as the concrete hash-based service does
for distinct texts); similarity constantly `0`. -/
def svcLen : EmbeddingService := ⟨fun s => [(s.length : ℚ)], fun _ _ => 0⟩

/-- A stored entry as `store(1, "lesson", "k", "v")` under `svcOne` or
`svcLen` creates it. -/
def entryA : MemoryEntry :=
  { id := "mem-1", userId := 1, projectId := none, memoryType := .lesson,
    key := "k", value := "v", embedding := some [1], relevanceScore := none,
    createdAt := 0, updatedAt := 0, accessCount := 0, lastAccessed := 0 }

/-- The `entryA` after one earlier access. -/
def entryA1 : MemoryEntry := { entryA with accessCount := 1 }

/-- A second entry of the same user. -/
def entryB : MemoryEntry :=
  { entryA with id := "mem-2", key := "k2", value := "w" }

/-- An entry scoped to project `5`. -/
def entryP5 : MemoryEntry := { entryA with projectId := some 5 }

/-- The `entryA` carrying a relevance score from an earlier text query. -/
def entryAScored : MemoryEntry := { entryA with relevanceScore := some 1 }

/-- One-entry store. -/
def stOne : MemoryStorage := ⟨[entryA], 2⟩

/-- Two-entry store, the first entry more accessed. -/
def stTwo : MemoryStorage := ⟨[entryA1, entryB], 3⟩

/-- One-entry store scoped to project `5`. -/
def stP5 : MemoryStorage := ⟨[entryP5], 2⟩

/-- One-entry store whose entry already carries a relevance score. -/
def stScored : MemoryStorage := ⟨[entryAScored], 2⟩

/-- Query without text. -/
def qNoText : MemoryQuery := { userId := 1 }

/-- Text query for `"v"`. -/
def qTextV : MemoryQuery := { userId := 1, query := some "v" }

/-- Text query with `limit: 1`. -/
def qTextLimit1 : MemoryQuery := { userId := 1, query := some "q", limit := some 1 }

/-- Query with `projectId: 0`. -/
def qProj0 : MemoryQuery := { userId := 1, projectId := some 0 }

/-- Query with `projectId: 5`. -/
def qProj5 : MemoryQuery := { userId := 1, projectId := some 5 }

/-- Query with `limit: 0`. -/
def qLimit0 : MemoryQuery := { userId := 1, limit := some 0 }

/-- An entry with every field but `relevanceScore` kept: equality under
`exceptScore` says two entries agree outside the relevance score. -/
def exceptScore (e : MemoryEntry) : MemoryEntry := { e with relevanceScore := none }

/-- An entry with the retrieval bookkeeping fields blanked: equality under
`exceptBookkeeping` says two entries agree outside `relevanceScore`,
`accessCount` and `lastAccessed`. -/
def exceptBookkeeping (e : MemoryEntry) : MemoryEntry :=
  { e with relevanceScore := none, accessCount := 0, lastAccessed := 0 }

/-- The `entryA` after `update("mem-1", 1, {value: "wx"})` under `svcLen`. -/
def entryAUpd : MemoryEntry :=
  { entryA with
    value := "wx"
    updatedAt := 9
    embedding := some (svcLen.generateEmbedding "wx") }

/-- The `stOne` after that update. -/
def stOneUpd : MemoryStorage := ⟨[entryAUpd], 2⟩

/-! ## Shared lemmas about the string helpers -/

theorem jsSplitCoreF_ne_nil (sep : List Char) (fuel : Nat) (l : List Char) :
    jsSplitCoreF sep fuel l ≠ [] := by
  rcases fuel with _ | fuel <;> rcases l with _ | ⟨c, rest⟩ <;>
    simp only [jsSplitCoreF] <;> try simp
  split
  · simp
  · split <;> simp

theorem length_jsSplitCoreF (sep : List Char) (fuel : Nat) :
    ∀ l : List Char,
    (jsSplitCoreF sep fuel l).length = countOccurrencesF sep fuel l + 1 := by
  induction fuel with
  | zero =>
    intro l
    rcases l with _ | ⟨c, rest⟩ <;> simp [jsSplitCoreF, countOccurrencesF]
  | succ fuel ih =>
    intro l
    rcases l with _ | ⟨c, rest⟩
    · simp [jsSplitCoreF, countOccurrencesF]
    · by_cases hP : sep ≠ [] ∧ sep.isPrefixOf (c :: rest)
      · simp only [jsSplitCoreF, countOccurrencesF, if_pos hP, List.length_cons, ih]
        omega
      · simp only [jsSplitCoreF, countOccurrencesF, if_neg hP]
        rcases hrec : jsSplitCoreF sep fuel rest with _ | ⟨h, t⟩
        · exact absurd hrec (jsSplitCoreF_ne_nil sep fuel rest)
        · have hlen := ih rest
          rw [hrec] at hlen
          simp only [List.length_cons] at hlen ⊢
          omega

theorem length_jsSplit (s sep : String) :
    (jsSplit s sep).length = countOccurrences sep.toList s.toList + 1 := by
  simp [jsSplit, jsSplitCore, countOccurrences, length_jsSplitCoreF]

theorem countOccurrencesF_pos_iff (sub : List Char) (hsub : sub ≠ []) (fuel : Nat) :
    ∀ l : List Char, l.length ≤ fuel →
    (0 < countOccurrencesF sub fuel l ↔ listIncludes sub l = true) := by
  induction fuel with
  | zero =>
    intro l hl
    have hnil : l = [] := List.length_eq_zero.mp (Nat.le_zero.mp hl)
    subst hnil
    simp [countOccurrencesF, listIncludes, List.isEmpty_iff, hsub]
  | succ fuel ih =>
    intro l hl
    rcases l with _ | ⟨c, rest⟩
    · simp [countOccurrencesF, listIncludes, List.isEmpty_iff, hsub]
    · by_cases hP : sub.isPrefixOf (c :: rest) = true
      · simp [countOccurrencesF, listIncludes, hsub, hP]
      · have hr : rest.length ≤ fuel := by
          simp only [List.length_cons] at hl
          omega
        simp [countOccurrencesF, listIncludes, hsub, hP, ih rest hr]

theorem countOccurrences_pos_iff (sub l : List Char) (hsub : sub ≠ []) :
    0 < countOccurrences sub l ↔ listIncludes sub l = true :=
  countOccurrencesF_pos_iff sub hsub l.length l (Nat.le_refl _)

/-! ## Shared lemmas about the retrieval pipeline -/

namespace MemoryStorage

theorem skipsEntry_false_userId {q : MemoryQuery} {e : MemoryEntry}
    (h : skipsEntry q e = false) : e.userId = q.userId := by
  simp [skipsEntry] at h
  tauto

theorem skipsEntry_false_projectId {q : MemoryQuery} {e : MemoryEntry} {p : Nat}
    (h : skipsEntry q e = false) (hp : q.projectId = some p) (hp0 : p ≠ 0) :
    e.projectId = some p := by
  simp [skipsEntry, natTruthy, hp, hp0] at h
  tauto

theorem scanEntry_fst_some {svc : EmbeddingService} {q : MemoryQuery}
    {e s : MemoryEntry} (h : (scanEntry svc q e).1 = some s) :
    (scanEntry svc q e).2 = s ∧
    s = { e with relevanceScore := s.relevanceScore } ∧
    skipsEntry q e = false := by
  by_cases h1 : skipsEntry q e
  · simp [scanEntry, h1] at h
  · by_cases h2 : (strTruthy q.query && e.embedding.isSome) = true
    · by_cases h3 : (3 / 10 : ℚ) <
        svc.calculateSimilarity (e.embedding.getD [])
          (svc.generateEmbedding (q.query.getD ""))
      · simp only [scanEntry, if_neg h1, if_pos h2, if_pos h3,
          Option.some.injEq] at h
        subst h
        refine ⟨?_, ?_, ?_⟩ <;> simp [scanEntry, h1, h2, h3]
      · simp [scanEntry, h1, h2, h3] at h
    · simp only [scanEntry, if_neg h1, if_neg h2, Option.some.injEq] at h
      subst h
      refine ⟨?_, ?_, ?_⟩ <;> simp [scanEntry, h1, h2]

theorem scanEntry_snd_shape (svc : EmbeddingService) (q : MemoryQuery)
    (e : MemoryEntry) :
    (scanEntry svc q e).2 =
      { e with relevanceScore := (scanEntry svc q e).2.relevanceScore } := by
  by_cases h1 : skipsEntry q e
  · simp [scanEntry, h1]
  · by_cases h2 : (strTruthy q.query && e.embedding.isSome) = true
    · by_cases h3 : (3 / 10 : ℚ) <
        svc.calculateSimilarity (e.embedding.getD [])
          (svc.generateEmbedding (q.query.getD ""))
      · simp [scanEntry, h1, h2, h3]
      · simp [scanEntry, h1, h2, h3]
    · simp [scanEntry, h1, h2]

theorem scanEntry_no_text {svc : EmbeddingService} {q : MemoryQuery}
    (e : MemoryEntry) (hq : strTruthy q.query = false) :
    (scanEntry svc q e).2 = e ∧
    ((scanEntry svc q e).1 = none ∨ (scanEntry svc q e).1 = some e) := by
  by_cases h1 : skipsEntry q e
  · simp [scanEntry, h1]
  · simp [scanEntry, h1, hq]

theorem mem_candidates {svc : EmbeddingService} {st : MemoryStorage}
    {q : MemoryQuery} {s : MemoryEntry} (h : s ∈ candidates svc st q) :
    ∃ e ∈ st.memories, (scanEntry svc q e).1 = some s := by
  simpa [candidates] using List.mem_filterMap.mp h

theorem mem_entries_retrieve {svc : EmbeddingService} {st : MemoryStorage}
    {q : MemoryQuery} {now : Nat} {r : MemoryEntry}
    (h : r ∈ (retrieve svc st q now).1.entries) :
    ∃ s, s ∈ candidates svc st q ∧ r = bumpAccess now s := by
  simp only [retrieve] at h
  rcases List.mem_map.mp h with ⟨s, hs, rfl⟩
  exact ⟨s,
    (List.perm_insertionSort retrieveOrder _).mem_iff.mp
      (List.take_subset _ _ hs), rfl⟩

end MemoryStorage

/-! ## Claim theorems -/

/-- C3: every entry returned by `retrieve({subjectId: x})` has `subjectId`
(modelled as `userId`) equal to `x`; an entry owned by a different subject
is never returned. -/
theorem c3_retrieve_subject_scoping (svc : EmbeddingService)
    (st : MemoryStorage) (q : MemoryQuery) (now : Nat) (r : MemoryEntry)
    (h : r ∈ (MemoryStorage.retrieve svc st q now).1.entries) :
    r.userId = q.userId := by
  rcases MemoryStorage.mem_entries_retrieve h with ⟨s, hs, rfl⟩
  rcases MemoryStorage.mem_candidates hs with ⟨e, he, hfst⟩
  rcases MemoryStorage.scanEntry_fst_some hfst with ⟨-, hshape, hskip⟩
  have huid := MemoryStorage.skipsEntry_false_userId hskip
  have hsu : s.userId = e.userId := by rw [hshape]
  simp [MemoryStorage.bumpAccess, hsu, huid]

/-- C3 witness: a concrete retrieval returning one entry, whose owner is the
query subject. -/
theorem c3_witness :
    MemoryStorage.bumpAccess 6 entryA ∈
      (MemoryStorage.retrieve svcOne stOne qNoText 6).1.entries ∧
    (MemoryStorage.bumpAccess 6 entryA).userId = qNoText.userId :=
  ⟨by decide, c3_retrieve_subject_scoping svcOne stOne qNoText 6 _ (by decide)⟩

/-- C2 counterexample: after a text retrieval attaches `relevanceScore = 1`
to the stored entry, a no-text retrieval returns the entry still carrying
score `1`, not `0`. -/
theorem c2_counterexample :
    (MemoryStorage.retrieve svcOne
        (MemoryStorage.retrieve svcOne stOne qTextV 5).2 qNoText 6).1.entries.map
      (fun e => e.relevanceScore) = [some 1] ∧ some (1 : ℚ) ≠ some (0 : ℚ) := by
  constructor
  · norm_num +decide [MemoryStorage.retrieve, MemoryStorage.candidates,
      MemoryStorage.scanEntry, MemoryStorage.afterScan, MemoryStorage.skipsEntry,
      MemoryStorage.bumpAccess, stOne, entryA, qTextV, qNoText, svcOne, strTruthy,
      natTruthy, jsOrNat, List.insertionSort, List.orderedInsert]
  · simp

/-- C2 amended: a retrieval without query text does not touch
`relevanceScore` at all — every returned entry carries exactly the relevance
score already stored for it (initially unset and only treated as `0` during
sorting), so a score attached by an earlier text query carries over. -/
theorem c2_amended_no_text_keeps_score (svc : EmbeddingService)
    (st : MemoryStorage) (q : MemoryQuery) (now : Nat)
    (hq : strTruthy q.query = false) (r : MemoryEntry)
    (h : r ∈ (MemoryStorage.retrieve svc st q now).1.entries) :
    ∃ e ∈ st.memories, e.id = r.id ∧ r.relevanceScore = e.relevanceScore := by
  rcases MemoryStorage.mem_entries_retrieve h with ⟨s, hs, rfl⟩
  rcases MemoryStorage.mem_candidates hs with ⟨e, he, hfst⟩
  rcases (@MemoryStorage.scanEntry_no_text svc q e hq).2 with
    hnone | hsome
  · rw [hfst] at hnone
    cases hnone
  · rw [hfst] at hsome
    injection hsome with hse
    subst hse
    exact ⟨_, he, rfl, rfl⟩

/-- C2 witness: the amended statement at a store whose entry already carries
a score. -/
theorem c2_witness :
    ∃ e ∈ stScored.memories,
      e.id = (MemoryStorage.bumpAccess 6 entryAScored).id ∧
      (MemoryStorage.bumpAccess 6 entryAScored).relevanceScore =
        e.relevanceScore :=
  c2_amended_no_text_keeps_score svcOne stScored qNoText 6 rfl _ (by decide)

/-- C4 counterexample: with `scopeId` (modelled as `projectId`) equal to
`0`, the scope filter is skipped (JavaScript truthiness) and an entry scoped
to project `5` is returned. -/
theorem c4_counterexample :
    qProj0.projectId = some 0 ∧
    (MemoryStorage.retrieve svcOne stP5 qProj0 3).1.entries.map
      (fun e => e.projectId) = [some 5] := ⟨rfl, by decide⟩

/-- C4 amended: when a nonzero `scopeId` is given, every returned entry has
exactly that scope; a `scopeId` of `0` is falsy and disables the filter. -/
theorem c4_amended_nonzero_scope (svc : EmbeddingService) (st : MemoryStorage)
    (q : MemoryQuery) (now : Nat) (p : Nat) (hp : q.projectId = some p)
    (hp0 : p ≠ 0) (r : MemoryEntry)
    (h : r ∈ (MemoryStorage.retrieve svc st q now).1.entries) :
    r.projectId = some p := by
  rcases MemoryStorage.mem_entries_retrieve h with ⟨s, hs, rfl⟩
  rcases MemoryStorage.mem_candidates hs with ⟨e, he, hfst⟩
  rcases MemoryStorage.scanEntry_fst_some hfst with ⟨-, hshape, hskip⟩
  have hep := MemoryStorage.skipsEntry_false_projectId hskip hp hp0
  have hsp : s.projectId = e.projectId := by rw [hshape]
  simp [MemoryStorage.bumpAccess, hsp, hep]

/-- C4 witness: a concrete nonzero-scope retrieval. -/
theorem c4_witness : (MemoryStorage.bumpAccess 9 entryP5).projectId = some 5 :=
  c4_amended_nonzero_scope svcOne stP5 qProj5 9 5 rfl (by decide) _ (by decide)

/-- C7 counterexample: a supplied `limit` of `0` is falsy, falls back to the
default of `10`, and one entry is returned rather than none. -/
theorem c7_counterexample :
    qLimit0.limit = some 0 ∧
    (MemoryStorage.retrieve svcOne stOne qLimit0 3).1.entries.length = 1 :=
  ⟨rfl, by decide⟩

/-- C7 amended: a supplied nonzero `limit` bounds the number of returned
entries; an absent limit and a limit of `0` both behave as the default `10`;
`totalMatched` (modelled as `totalResults`) is the pre-truncation candidate
count. -/
theorem c7_amended_limit (svc : EmbeddingService) (st : MemoryStorage)
    (q : MemoryQuery) (now : Nat) :
    (MemoryStorage.retrieve svc st q now).1.entries.length ≤
      jsOrNat q.limit 10 ∧
    (∀ l, q.limit = some l → l ≠ 0 →
      (MemoryStorage.retrieve svc st q now).1.entries.length ≤ l) ∧
    (q.limit = none →
      (MemoryStorage.retrieve svc st q now).1.entries.length ≤ 10) ∧
    (q.limit = some 0 →
      (MemoryStorage.retrieve svc st q now).1.entries.length ≤ 10) ∧
    (MemoryStorage.retrieve svc st q now).1.totalResults =
      (MemoryStorage.candidates svc st q).length := by
  have hlen : (MemoryStorage.retrieve svc st q now).1.entries.length ≤
      jsOrNat q.limit 10 := by
    simp only [MemoryStorage.retrieve, List.length_map, List.length_take]
    exact min_le_left _ _
  refine ⟨hlen, ?_, ?_, ?_, rfl⟩
  · intro l hl hl0
    simpa [jsOrNat, hl, hl0] using hlen
  · intro hl
    simpa [jsOrNat, hl] using hlen
  · intro hl
    simpa [jsOrNat, hl] using hlen

/-- C7 witness: the default-limit bound at a concrete query without a
limit. -/
theorem c7_witness :
    (MemoryStorage.retrieve svcOne stOne qNoText 3).1.entries.length ≤ 10 :=
  (c7_amended_limit svcOne stOne qNoText 3).2.2.1 rfl

/-- C10: whenever `delete(id, subjectId)` returns instead of raising, the
returned boolean is `true`. -/
theorem c10_delete_returns_true (st : MemoryStorage) (id : String) (uid : Nat)
    (b : Bool) (st' : MemoryStorage)
    (h : MemoryStorage.delete st id uid = .ok (b, st')) : b = true := by
  unfold MemoryStorage.delete at h
  split at h
  · cases h
  · next entry hf =>
    split at h
    · cases h
    · have hfst : (MemoryStorage.mapDelete st.memories id).1 = true := by
        simp [MemoryStorage.mapDelete, hf]
      simp only [Except.ok.injEq, Prod.mk.injEq] at h
      rw [← h.1]
      exact hfst

/-- C10 witness: a concrete successful deletion returning `true`. -/
theorem c10_witness :
    MemoryStorage.delete stOne "mem-1" 1 = .ok (true, ⟨[], 2⟩) ∧
    (true : Bool) = true :=
  ⟨rfl, c10_delete_returns_true stOne "mem-1" 1 true ⟨[], 2⟩ rfl⟩

/-- C8 counterexample: updating the value to the empty string succeeds but —
the empty string being falsy — skips embedding regeneration: the stored
embedding stays the one for the old value `"v"` rather than the embedding of
`""`. -/
theorem c8_counterexample :
    svcLen.generateEmbedding "" = [0] ∧
    (MemoryStorage.update svcLen stOne "mem-1" 1 ⟨none, some ""⟩ 9).toOption.map
      (fun p => p.1.embedding) = some (some [1]) ∧
    some ([1] : List ℚ) ≠ some ([0] : List ℚ) := by
  refine ⟨by simp [svcLen], ?_, by norm_num⟩
  simp [MemoryStorage.update, stOne, entryA, strTruthy, svcLen, Except.toOption]

/-- C8 amended: a successful `update` whose partial update carries a
nonempty `value` regenerates the embedding from the new value (an
empty-string value is falsy and leaves the embedding untouched, as the
counterexample shows). -/
theorem c8_amended_regenerates (svc : EmbeddingService) (st : MemoryStorage)
    (id : String) (uid : Nat) (upd : MemoryStorage.MemoryUpdates) (now : Nat)
    (v : String) (e : MemoryEntry) (st' : MemoryStorage)
    (hv : upd.value = some v) (hne : v ≠ "")
    (h : MemoryStorage.update svc st id uid upd now = .ok (e, st')) :
    e.embedding = some (svc.generateEmbedding v) ∧ e ∈ st'.memories := by
  unfold MemoryStorage.update at h
  split at h
  · cases h
  · next entry hf =>
    split at h
    · cases h
    · have htr : strTruthy (some v) = true := by simp [strTruthy, hne]
      rw [hv] at h
      simp only [htr, if_true, Option.getD_some, Except.ok.injEq,
        Prod.mk.injEq] at h
      obtain ⟨he, hst⟩ := h
      have hpred := List.find?_some hf
      have hmem : entry ∈ st.memories := List.mem_of_find?_eq_some hf
      refine ⟨by rw [← he], ?_⟩
      rw [← hst]
      refine List.mem_map.mpr ⟨entry, hmem, ?_⟩
      rw [if_pos hpred]
      exact he

/-- C8 witness: the amended statement at a concrete nonempty-value update. -/
theorem c8_witness :
    entryAUpd.embedding = some (svcLen.generateEmbedding "wx") ∧
    entryAUpd ∈ stOneUpd.memories :=
  c8_amended_regenerates svcLen stOne "mem-1" 1 ⟨none, some "wx"⟩ 9 "wx"
    entryAUpd stOneUpd rfl (by decide) rfl

/-- C5 counterexample: under a text query with `limit: 1`, both candidates
pass the relevance floor and get `relevanceScore` written onto the stored
objects, but only one is returned: the unreturned entry `mem-2` now carries
`relevanceScore = 1` where it had none, so an entry outside the returned set
was changed. -/
theorem c5_counterexample :
    stTwo.memories.map (fun e => e.relevanceScore) = [none, none] ∧
    (MemoryStorage.retrieve svcOne stTwo qTextLimit1 7).1.entries.map
      (fun e => e.id) = ["mem-1"] ∧
    (MemoryStorage.retrieve svcOne stTwo qTextLimit1 7).2.memories.map
      (fun e => (e.id, e.relevanceScore, e.accessCount)) =
      [("mem-1", some 1, 2), ("mem-2", some 1, 0)] := by
  refine ⟨by decide, ?_, ?_⟩ <;>
    norm_num +decide [MemoryStorage.retrieve, MemoryStorage.candidates,
      MemoryStorage.scanEntry, MemoryStorage.afterScan, MemoryStorage.skipsEntry,
      MemoryStorage.bumpAccess, MemoryStorage.retrieveOrder, MemoryStorage.scoreOf,
      stTwo, entryA1, entryB, entryA, qTextLimit1, svcOne, strTruthy, natTruthy,
      jsOrNat, List.insertionSort, List.orderedInsert]

/-- C5 amended: every returned entry corresponds to a stored entry with
`accessCount` incremented by one and `lastAccessed` set to the retrieval
time; a stored entry whose id is not among the returned ids keeps every
field except possibly `relevanceScore` (which a text query may overwrite on
floor-passing candidates that the limit then truncates away); with no query
text such an entry is entirely unchanged; a stored entry whose id is
returned gets exactly the access bookkeeping applied on top of that. -/
theorem c5_amended_access_bookkeeping (svc : EmbeddingService)
    (st : MemoryStorage) (q : MemoryQuery) (now : Nat) :
    (∀ r ∈ (MemoryStorage.retrieve svc st q now).1.entries,
      ∃ e ∈ st.memories, e.id = r.id ∧ r.accessCount = e.accessCount + 1 ∧
        r.lastAccessed = now) ∧
    (MemoryStorage.retrieve svc st q now).2.memories.length =
      st.memories.length ∧
    (∀ i (hi : i < st.memories.length)
        (hi2 : i < (MemoryStorage.retrieve svc st q now).2.memories.length),
      ((MemoryStorage.retrieve svc st q now).2.memories[i]).id =
        (st.memories[i]).id ∧
      ((st.memories[i]).id ∉
          (MemoryStorage.retrieve svc st q now).1.entries.map (fun r => r.id) →
        exceptScore ((MemoryStorage.retrieve svc st q now).2.memories[i]) =
          exceptScore (st.memories[i])) ∧
      (strTruthy q.query = false →
        (st.memories[i]).id ∉
          (MemoryStorage.retrieve svc st q now).1.entries.map (fun r => r.id) →
        (MemoryStorage.retrieve svc st q now).2.memories[i] =
          st.memories[i]) ∧
      ((st.memories[i]).id ∈
          (MemoryStorage.retrieve svc st q now).1.entries.map (fun r => r.id) →
        ((MemoryStorage.retrieve svc st q now).2.memories[i]).accessCount =
          (st.memories[i]).accessCount + 1 ∧
        ((MemoryStorage.retrieve svc st q now).2.memories[i]).lastAccessed =
          now ∧
        exceptBookkeeping ((MemoryStorage.retrieve svc st q now).2.memories[i]) =
          exceptBookkeeping (st.memories[i]))) := by
  have hiff : ∀ a : String,
      (a ∈ (MemoryStorage.retrieve svc st q now).1.entries.map (fun r => r.id))
      ↔ a ∈ ((List.insertionSort MemoryStorage.retrieveOrder
          (MemoryStorage.candidates svc st q)).take (jsOrNat q.limit 10)).map
          (fun x => x.id) := by
    intro a
    simp only [MemoryStorage.retrieve, List.map_map]
    exact Iff.rfl
  refine ⟨?_, ?_, ?_⟩
  · intro r hr
    rcases MemoryStorage.mem_entries_retrieve hr with ⟨s, hs, rfl⟩
    rcases MemoryStorage.mem_candidates hs with ⟨e, he, hfst⟩
    rcases MemoryStorage.scanEntry_fst_some hfst with ⟨-, hshape, -⟩
    have hsid : s.id = e.id := by rw [hshape]
    have hsacc : s.accessCount = e.accessCount := by rw [hshape]
    exact ⟨e, he, by simp [MemoryStorage.bumpAccess, hsid],
      by simp [MemoryStorage.bumpAccess, hsacc],
      by simp [MemoryStorage.bumpAccess]⟩
  · simp [MemoryStorage.retrieve, MemoryStorage.afterScan]
  · intro i hi hi2
    have hval : (MemoryStorage.retrieve svc st q now).2.memories[i] =
        (if ((MemoryStorage.scanEntry svc q (st.memories[i])).2).id ∈
            ((List.insertionSort MemoryStorage.retrieveOrder
              (MemoryStorage.candidates svc st q)).take
              (jsOrNat q.limit 10)).map (fun x => x.id) then
          MemoryStorage.bumpAccess now
            (MemoryStorage.scanEntry svc q (st.memories[i])).2
        else (MemoryStorage.scanEntry svc q (st.memories[i])).2) := by
      simp [MemoryStorage.retrieve, MemoryStorage.afterScan, List.getElem_map]
    have hshape := MemoryStorage.scanEntry_snd_shape svc q (st.memories[i])
    have hid2 : (MemoryStorage.scanEntry svc q
        (st.memories[i])).2.id = (st.memories[i]).id := by
      rw [hshape]
    refine ⟨?_, ?_, ?_, ?_⟩
    · rw [hval]
      split <;> simp [MemoryStorage.bumpAccess, hid2]
    · intro hnot
      have hnot2 : (st.memories[i]).id ∉
          ((List.insertionSort MemoryStorage.retrieveOrder
            (MemoryStorage.candidates svc st q)).take
            (jsOrNat q.limit 10)).map (fun x => x.id) :=
        fun hmem => hnot ((hiff _).mpr hmem)
      rw [hval, hid2, if_neg hnot2, hshape]
      rfl
    · intro hq hnot
      have hnot2 : (st.memories[i]).id ∉
          ((List.insertionSort MemoryStorage.retrieveOrder
            (MemoryStorage.candidates svc st q)).take
            (jsOrNat q.limit 10)).map (fun x => x.id) :=
        fun hmem => hnot ((hiff _).mpr hmem)
      rw [hval, hid2, if_neg hnot2,
        (MemoryStorage.scanEntry_no_text (st.memories[i]) hq).1]
    · intro hmem
      have hd := (hiff _).mp hmem
      have hacc : (MemoryStorage.scanEntry svc q
          (st.memories[i])).2.accessCount = (st.memories[i]).accessCount := by
        rw [hshape]
      refine ⟨?_, ?_, ?_⟩
      · rw [hval, hid2, if_pos hd]
        simp [MemoryStorage.bumpAccess, hacc]
      · rw [hval, hid2, if_pos hd]
        simp [MemoryStorage.bumpAccess]
      · rw [hval, hid2, if_pos hd, hshape]
        rfl

/-- C5 witness: the returned-entry half of the amended statement at a
concrete retrieval. -/
theorem c5_witness :
    ∃ e ∈ stOne.memories, e.id = (MemoryStorage.bumpAccess 4 entryA).id ∧
      (MemoryStorage.bumpAccess 4 entryA).accessCount = e.accessCount + 1 ∧
      (MemoryStorage.bumpAccess 4 entryA).lastAccessed = 4 :=
  (c5_amended_access_bookkeeping svcOne stOne qNoText 4).1 _ (by decide)

/-- C6 counterexample: a code string in which `any` occurs exactly 3 times
(3 or fewer, so the claim says the issue must not be reported) already
triggers the type-looseness issue, because `split("any")` yields 4 parts. -/
theorem c6_counterexample :
    countOccurrences "any".toList "anyanyany".toList = 3 ∧
    "Excessive use of \x27any\x27 type - consider proper typing" ∈
      VerifierAgent.checkCodeQuality "anyanyany" := ⟨by decide, by decide⟩

/-- C6 amended: the type-looseness issue is reported exactly when the marker
`any` occurs at least 3 times (more than 2, not more than 3): the check
compares `split("any").length`, which is the occurrence count plus one,
against 3. -/
theorem c6_amended_any_threshold (code : String) :
    "Excessive use of \x27any\x27 type - consider proper typing" ∈
      VerifierAgent.checkCodeQuality code ↔
    3 ≤ countOccurrences "any".toList code.toList := by
  have hsplit := length_jsSplit code "any"
  have hinc : 0 < countOccurrences "any".toList code.toList ↔
      jsIncludes code "any" = true := by
    simpa [jsIncludes] using
      countOccurrences_pos_iff "any".toList code.toList (by decide)
  constructor
  · intro hmem
    simp only [VerifierAgent.checkCodeQuality, List.mem_append] at hmem
    rcases hmem with (hmem | hmem) | hmem
    · split at hmem <;> simp_all
    · split at hmem
      · next hcond =>
        have hgt : (jsSplit code "any").length > 3 := by
          simp only [Bool.and_eq_true, decide_eq_true_eq] at hcond
          exact hcond.2
        omega
      · simp at hmem
    · split at hmem <;> simp_all
  · intro h3
    have hin : jsIncludes code "any" = true := hinc.mp (by omega)
    have hgt : (jsSplit code "any").length > 3 := by omega
    simp [VerifierAgent.checkCodeQuality, hin, hgt]

/-- C6 witness: the amended threshold at a concrete code string with 3
occurrences. -/
theorem c6_witness :
    3 ≤ countOccurrences "any".toList "xanyanyanyz".toList ∧
    "Excessive use of \x27any\x27 type - consider proper typing" ∈
      VerifierAgent.checkCodeQuality "xanyanyanyz" :=
  ⟨by decide, (c6_amended_any_threshold "xanyanyanyz").mpr (by decide)⟩

/-- C9: the pipeline runs Planner, Coder, Verifier, Executor in that fixed
order and stops after the first failed stage: a failing planner gives the
trace `[planner]`, a failing coder `[planner, coder]`, a failing verifier
`[planner, coder, verifier]` with no executor record, and full success all
four stages. -/
theorem c9_pipeline_order (A : AgentSet) (prompt : String) (pid now : Nat) :
    ((A.analyze prompt).success = false →
      (orchestratePipeline A prompt pid now).map (fun t => t.agentType) =
        [.planner]) ∧
    ((A.analyze prompt).success = true →
      (A.generate prompt (A.analyze prompt).result).success = false →
      (orchestratePipeline A prompt pid now).map (fun t => t.agentType) =
        [.planner, .coder]) ∧
    ((A.analyze prompt).success = true →
      (A.generate prompt (A.analyze prompt).result).success = true →
      (A.verify ((A.generate prompt
        (A.analyze prompt).result).result.getD "")).success = false →
      (orchestratePipeline A prompt pid now).map (fun t => t.agentType) =
        [.planner, .coder, .verifier]) ∧
    ((A.analyze prompt).success = true →
      (A.generate prompt (A.analyze prompt).result).success = true →
      (A.verify ((A.generate prompt
        (A.analyze prompt).result).result.getD "")).success = true →
      (orchestratePipeline A prompt pid now).map (fun t => t.agentType) =
        [.planner, .coder, .verifier, .executor]) := by
  refine ⟨?_, ?_, ?_, ?_⟩
  · intro h1
    simp [orchestratePipeline, h1, finalizeTask, mkTask]
  · intro h1 h2
    simp [orchestratePipeline, h1, h2, finalizeTask, mkTask]
  · intro h1 h2 h3
    simp [orchestratePipeline, h1, h2, h3, finalizeTask, mkTask]
  · intro h1 h2 h3
    simp [orchestratePipeline, h1, h2, h3, finalizeTask, mkTask]

/-- C9 witness: the built-in agents at the prompt `"x"` run planner and
coder successfully and stop at the failing verifier. -/
theorem c9_witness :
    (orchestratePipeline builtinAgents "x" 1 0).map (fun t => t.agentType) =
      [.planner, .coder, .verifier] :=
  (c9_pipeline_order builtinAgents "x" 1 0).2.2.1 (by decide) (by decide)
    (by decide)

/-- C1 counterexample: `orchestrate("build a todo list", 42)` with the
built-in agents does not return 4 records: the built-in Verifier rejects the
built-in Coder output, so the trace has 3 records. -/
theorem c1_counterexample :
    ¬((AgentOrchestrator.orchestrate "build a todo list" 42 0).length = 4) :=
  by decide

/-- C1 amended: `orchestrate("build a todo list", 42)` with the built-in
agents (none of which throws) returns exactly 3 records — planner completed,
coder completed, verifier failed — the last carrying the error listing the
single issue `No error handling detected` that the Verifier finds in the
Coder template; no executor record is produced. -/
theorem c1_amended_three_records (now : Nat) :
    (AgentOrchestrator.orchestrate "build a todo list" 42 now).map
      (fun t => (t.agentType, t.status)) =
      [(.planner, .completed), (.coder, .completed), (.verifier, .failed)] ∧
    ((AgentOrchestrator.orchestrate "build a todo list" 42 now).getLast?).map
      (fun t => t.error) =
      some (some
        "Code verification found 1 issues:\nNo error handling detected") := by
  have hv : VerifierAgent.verify (codeTemplate "build a todo list") =
      { success := false,
        error := some
          "Code verification found 1 issues:\nNo error handling detected",
        nextAgent := some .coder } := by decide
  constructor <;>
    simp [AgentOrchestrator.orchestrate, orchestratePipeline, builtinAgents,
      PlannerAgent.analyze, CoderAgent.generate, hv, finalizeTask, mkTask,
      List.getLast?]
